import Mathlib

/-!
Shallow embedding of `web_app/db/seed_data.py` (spotnet seeding script).

The script generates synthetic data: `create_users` builds 10 users with
unique wallet tokens, the fan-out generators (`create_positions`,
`create_airdrops`, `create_telegram_users`, `create_vaults`) build 2 child
records per parent user, and `create_transaction` builds one transaction per
(position, transaction-status) pair.

External collaborators are modelled explicitly:
 - the Faker instance `fake` is a deterministic stream of raw draws
   (`FakeState.draws`, consumed one per sampling call) plus the state of the
   `fake.unique` proxy (a mint counter over a finite uniqueness domain);
 - the SQLAlchemy session is a log of sink operations plus the database's id
   sequence.  `add_all` + `commit` assigns primary keys back onto the Python
   objects; `bulk_save_objects` (with its default `return_defaults=False`)
   inserts the rows but does NOT write the assigned ids back onto the objects.

Python values are embedded as follows: uuid tokens are identified by their
mint index (a `Nat`), datetimes by a `Nat` timestamp, amounts by the tagged
type `PyVal` so that the runtime type (int / str / Decimal / float) of each
generated field stays observable.
-/

/-- The runtime value stored in a generated numeric/amount field, tagging the
Python type it carries: a bare `int`, a `str`, a fixed-precision `Decimal`
(mantissa and decimal exponent), or a `float`. -/
inductive PyVal where
  | intVal (n : Nat)
  | strVal (s : String)
  | decVal (mantissa : Nat) (exp : Nat)
  | floatVal (raw : Nat)
  deriving Repr, DecidableEq

/-- `true` exactly when the value is a fixed-precision decimal. -/
def PyVal.isDecimal : PyVal → Bool
  | .decVal _ _ => true
  | _ => false

/-- State of the module-level Faker instance `fake`: the stream of raw random
draws (one consumed per sampling call; `idx` points at the next draw) and the
state of the `fake.unique` proxy (`uniqueUsed` tokens minted so far out of a
finite `uniqueDomain`). -/
structure FakeState where
  draws : List Nat
  idx : Nat
  uniqueUsed : Nat
  uniqueDomain : Nat
  deriving Repr, DecidableEq

/-- Consume one raw draw from the stream (0 past its end). -/
def fakeDraw (s : FakeState) : Nat × FakeState :=
  (s.draws.getD s.idx 0, { s with idx := s.idx + 1 })

/-- `fake.boolean()`: one draw, odd means `True`. -/
def fakeBoolean (s : FakeState) : Bool × FakeState :=
  let (d, s) := fakeDraw s
  (d % 2 == 1, s)

/-- `fake.random_element(elements=l)`: one draw picks an index into `l`. -/
def fakeRandomElement (l : List String) (s : FakeState) : String × FakeState :=
  let (d, s) := fakeDraw s
  (l.getD (d % l.length) "", s)

/-- `fake.random_number(digits=5)`: a plain `int` below 100000. -/
def fakeRandomNumber5 (s : FakeState) : Nat × FakeState :=
  let (d, s) := fakeDraw s
  (d % 100000, s)

/-- `fake.random_int(min=lo, max=hi)`: an `int` in `[lo, hi]`. -/
def fakeRandomInt (lo hi : Nat) (s : FakeState) : Nat × FakeState :=
  let (d, s) := fakeDraw s
  (lo + d % (hi - lo + 1), s)

/-- `fake.pydecimal(left_digits=5, right_digits=2, positive=True)` (wrapped in
`Decimal(...)` by the callers): a fixed-precision decimal with two fractional
digits. -/
def fakePydecimal (s : FakeState) : PyVal × FakeState :=
  let (d, s) := fakeDraw s
  (PyVal.decVal (d % 10000000) 2, s)

/-- `fake.pyfloat(min_value=0.0, max_value=1.0)`: a `float`; the embedding
keeps the raw draw under the `floatVal` tag. -/
def fakePyfloat (s : FakeState) : PyVal × FakeState :=
  let (d, s) := fakeDraw s
  (PyVal.floatVal d, s)

/-- `fake.date_time_this_decade()`: a datetime, embedded as a timestamp. -/
def fakeDateTimeThisDecade (s : FakeState) : Nat × FakeState :=
  let (d, s) := fakeDraw s
  (d, s)

/-- A free-form string field (`fake.address()`, `fake.user_name()`,
`fake.first_name()`, `fake.last_name()`, `fake.image_url()`): one draw,
rendered with the given prefix tag. -/
def fakeStringField (tag : String) (s : FakeState) : String × FakeState :=
  let (d, s) := fakeDraw s
  (tag ++ toString d, s)

/-- `fake.random_choices(elements=l)` draws `k` elements of `l` with
replacement, where `k` is itself random in `[1, len(l)]` because the call
passes no `length` argument.  The result is a `list`, not a single element. -/
def fakeTakeElements (l : List String) : Nat → FakeState → List String × FakeState
  | 0, s => ([], s)
  | n + 1, s =>
    let r := fakeRandomElement l s
    let rs := fakeTakeElements l n r.2
    (r.1 :: rs.1, rs.2)

/-- See `fakeTakeElements`: the length draw followed by the element draws. -/
def fakeRandomChoices (l : List String) (s : FakeState) : List String × FakeState :=
  let (d, s) := fakeDraw s
  fakeTakeElements l (1 + d % l.length) s

/-- Modelled from the spec: `fake.unique.uuid4()`, the run-wide
exhaustion-checked unique-token generator (Faker's `unique` proxy, an external
collaborator; the spec calls for "a generator with a built-in
exhaustion-checked uniqueness guarantee" that "must fail loudly (not silently
retry with a duplicate) if exhausted").  Each minted token is identified by
its mint index, so a token is never repeated within a run; once the
uniqueness domain is exhausted the proxy raises (`UniquenessException`)
instead of returning a duplicate. -/
def fakeUniqueUuid4 (s : FakeState) : Except String (Nat × FakeState) :=
  if s.uniqueUsed < s.uniqueDomain then
    .ok (s.uniqueUsed, { s with uniqueUsed := s.uniqueUsed + 1 })
  else
    .error "UniquenessException"

/-- One call into the persistence sink, recording the batch size where
records are handed over. -/
inductive SinkOp where
  | addAll (n : Nat)
  | bulkSave (n : Nat)
  | commit
  deriving Repr, DecidableEq

/-- The SQLAlchemy session: the log of sink operations issued so far and the
database's primary-key sequence. -/
structure Session where
  ops : List SinkOp
  nextId : Nat
  deriving Repr, DecidableEq

/-- Consecutive primary-key assignment starting at `k`, via the supplied
setter. -/
def assignIdsFrom (setId : Nat → α → α) : Nat → List α → List α
  | _, [] => []
  | k, x :: xs => setId k x :: assignIdsFrom setId (k + 1) xs

/-- `session.add_all(xs)` followed by `session.commit()`: the database
assigns consecutive primary keys and (because the objects live in the
session) the ids become visible on the objects, via the supplied setter. -/
def sessionAddAllCommit (setId : Nat → α → α) (sess : Session) (xs : List α) :
    List α × Session :=
  (assignIdsFrom setId sess.nextId xs,
   { ops := sess.ops ++ [SinkOp.addAll xs.length, SinkOp.commit],
     nextId := sess.nextId + xs.length })

/-- `session.bulk_save_objects(xs)` followed by `session.commit()`: the rows
are inserted and the database advances its id sequence, but with the default
`return_defaults=False` the assigned ids are NOT written back onto the
objects. -/
def sessionBulkSaveCommit (sess : Session) (n : Nat) : Session :=
  { ops := sess.ops ++ [SinkOp.bulkSave n, SinkOp.commit],
    nextId := sess.nextId + n }

/-- Modelled from the spec: the token-symbol enumeration
`[token.name for token in TokenParams.tokens()]` — a "closed, externally
supplied token-symbol enumeration" (`web_app.contract_tools.constants` is not
part of the sources); concrete member names stand in for the real ones. -/
def tokenNames : List String := ["ETH", "STRK", "USDC"]

/-- Modelled from the spec: the position-status enumeration
`[status.value for status in Status]` — a "closed status enumeration"
(`web_app.db.models` is not part of the sources). -/
def statusValues : List String := ["pending", "opened", "closed"]

/-- Modelled from the spec: the ordered transaction-status enumeration
`[status.value for status in TransactionStatus]` — a "closed, *ordered* list
of transaction-status values" (`web_app.db.models` is not part of the
sources); a four-value enumeration as in the spec's worked scenario. -/
def transactionStatusValues : List String :=
  ["opened", "closed", "pending", "cancelled"]

/-- `models.User` as constructed by `create_users` (`id` is the primary key,
`none` until the sink assigns it). -/
structure User where
  id : Option Nat
  wallet_id : Nat
  contract_address : String
  is_contract_deployed : Bool
  deriving Repr, DecidableEq

/-- `models.Position` as constructed by `create_positions`. -/
structure Position where
  id : Option Nat
  user_id : Option Nat
  token_symbol : String
  amount : PyVal
  multiplier : Nat
  start_price : PyVal
  status : String
  is_protection : Bool
  liquidation_bonus : PyVal
  is_liquidated : Bool
  datetime_liquidation : Option Nat
  deriving Repr, DecidableEq

/-- `models.AirDrop` as constructed by `create_airdrops`. -/
structure AirDrop where
  id : Option Nat
  user_id : Option Nat
  amount : PyVal
  is_claimed : Bool
  claimed_at : Option Nat
  deriving Repr, DecidableEq

/-- `models.TelegramUser` as constructed by `create_telegram_users`. -/
structure TelegramUser where
  id : Option Nat
  telegram_id : Nat
  username : String
  first_name : String
  last_name : String
  wallet_id : Nat
  photo_url : String
  is_allowed_notification : Bool
  deriving Repr, DecidableEq

/-- `models.Vault` as constructed by `create_vaults`; `symbol` is a `List`
because `fake.random_choices` returns a list of elements. -/
structure Vault where
  id : Option Nat
  user_id : Option Nat
  symbol : List String
  amount : PyVal
  deriving Repr, DecidableEq

/-- `models.Transaction` as constructed by `create_transaction`. -/
structure Transaction where
  id : Option Nat
  position_id : Option Nat
  status : String
  transaction_hash : Nat
  deriving Repr, DecidableEq

/-- The body of one `create_users` loop iteration: a fresh unique wallet
token, an address and a boolean, in the evaluation order of the `User(...)`
constructor call. -/
def mkUser (s : FakeState) : Except String (User × FakeState) := do
  let (w, s) ← fakeUniqueUuid4 s
  let (addr, s) := fakeStringField "addr-" s
  let (b, s) := fakeBoolean s
  .ok ({ id := none, wallet_id := w, contract_address := addr,
         is_contract_deployed := b }, s)

/-- The `for _ in range(n)` loop of `create_users`, building the `users`
list. -/
def buildUsers : Nat → FakeState → Except String (List User × FakeState)
  | 0, s => .ok ([], s)
  | n + 1, s => do
    let (u, s) ← mkUser s
    let (us, s) ← buildUsers n s
    .ok (u :: us, s)

/-- Writes a `User`'s primary key, for the sink's id assignment. -/
def User.setId (k : Nat) (u : User) : User := { u with id := some k }

/-- `create_users(session)`: builds 10 users with unique wallet tokens, then
`session.add_all` + `session.commit` (which assigns their primary keys), and
returns them. -/
def create_users (sess : Session) (s : FakeState) :
    Except String (List User × Session × FakeState) := do
  let (us, s) ← buildUsers 10 s
  let (us, sess) := sessionAddAllCommit User.setId sess us
  .ok (us, sess, s)

/-- The body of one `create_positions` inner-loop iteration: the
`Position(...)` constructor call, fields sampled in keyword order.
`datetime_liquidation` is populated unconditionally. -/
def mkPosition (u : User) (s : FakeState) : Position × FakeState :=
  let (sym, s) := fakeRandomElement tokenNames s
  let (amt, s) := fakeRandomNumber5 s
  let (mult, s) := fakeRandomInt 1 10 s
  let (sp, s) := fakePydecimal s
  let (st, s) := fakeRandomElement statusValues s
  let (prot, s) := fakeBoolean s
  let (lb, s) := fakePyfloat s
  let (liq, s) := fakeBoolean s
  let (dt, s) := fakeDateTimeThisDecade s
  ({ id := none, user_id := u.id, token_symbol := sym,
     amount := PyVal.intVal amt, multiplier := mult, start_price := sp,
     status := st, is_protection := prot, liquidation_bonus := lb,
     is_liquidated := liq, datetime_liquidation := some dt }, s)

/-- The nested loops of `create_positions`: two positions per user. -/
def buildPositions : List User → FakeState → List Position × FakeState
  | [], s => ([], s)
  | u :: us, s =>
    let r1 := mkPosition u s
    let r2 := mkPosition u r1.2
    let rs := buildPositions us r2.2
    (r1.1 :: r2.1 :: rs.1, rs.2)

/-- `create_positions(session, users)`: two positions per user; when the
batch is non-empty it is bulk-saved and committed (ids are not written back
onto the objects), otherwise no sink call is made; the built list is
returned. -/
def create_positions (sess : Session) (users : List User) (s : FakeState) :
    List Position × Session × FakeState :=
  let r := buildPositions users s
  if r.1.isEmpty then (r.1, sess, r.2)
  else (r.1, sessionBulkSaveCommit sess r.1.length, r.2)

/-- The body of one `create_airdrops` inner-loop iteration: the
`AirDrop(...)` constructor call; `claimed_at` is the conditional expression
`fake.date_time_this_decade() if fake.boolean() else None`, whose boolean
guard draw happens first and whose datetime draw happens only on the `True`
branch. -/
def mkAirDrop (u : User) (s : FakeState) : AirDrop × FakeState :=
  let (amt, s) := fakePydecimal s
  let (cl, s) := fakeBoolean s
  let (b, s) := fakeBoolean s
  let (claimedAt, s) :=
    if b then
      let (dt, s) := fakeDateTimeThisDecade s
      (some dt, s)
    else (none, s)
  ({ id := none, user_id := u.id, amount := amt, is_claimed := cl,
     claimed_at := claimedAt }, s)

/-- The nested loops of `create_airdrops`: two airdrops per user. -/
def buildAirDrops : List User → FakeState → List AirDrop × FakeState
  | [], s => ([], s)
  | u :: us, s =>
    let r1 := mkAirDrop u s
    let r2 := mkAirDrop u r1.2
    let rs := buildAirDrops us r2.2
    (r1.1 :: r2.1 :: rs.1, rs.2)

/-- `create_airdrops(session, users)`: two airdrops per user; when the batch
is non-empty it is bulk-saved and committed, otherwise no sink call is made.
The Python function returns `None`; the built batch is exposed here so its
contents can be specified. -/
def create_airdrops (sess : Session) (users : List User) (s : FakeState) :
    List AirDrop × Session × FakeState :=
  let r := buildAirDrops users s
  if r.1.isEmpty then (r.1, sess, r.2)
  else (r.1, sessionBulkSaveCommit sess r.1.length, r.2)

/-- The body of one `create_telegram_users` inner-loop iteration: the
`TelegramUser(...)` constructor call; `telegram_id` comes from the unique
generator and `wallet_id` copies the parent user's wallet token. -/
def mkTelegramUser (u : User) (s : FakeState) :
    Except String (TelegramUser × FakeState) := do
  let (tid, s) ← fakeUniqueUuid4 s
  let (un, s) := fakeStringField "user-" s
  let (fn, s) := fakeStringField "first-" s
  let (ln, s) := fakeStringField "last-" s
  let (url, s) := fakeStringField "img-" s
  let (b, s) := fakeBoolean s
  .ok ({ id := none, telegram_id := tid, username := un, first_name := fn,
         last_name := ln, wallet_id := u.wallet_id, photo_url := url,
         is_allowed_notification := b }, s)

/-- The nested loops of `create_telegram_users`: two records per user. -/
def buildTelegramUsers : List User → FakeState →
    Except String (List TelegramUser × FakeState)
  | [], s => .ok ([], s)
  | u :: us, s => do
    let (t1, s) ← mkTelegramUser u s
    let (t2, s) ← mkTelegramUser u s
    let (ts, s) ← buildTelegramUsers us s
    .ok (t1 :: t2 :: ts, s)

/-- `create_telegram_users(session, users)`: two Telegram users per user;
unconditionally bulk-saves and commits the batch (no empty-batch guard in
this function).  The Python function returns `None`; the built batch is
exposed here so its contents can be specified. -/
def create_telegram_users (sess : Session) (users : List User) (s : FakeState) :
    Except String (List TelegramUser × Session × FakeState) := do
  let (ts, s) ← buildTelegramUsers users s
  .ok (ts, sessionBulkSaveCommit sess ts.length, s)

/-- The body of one `create_vaults` inner-loop iteration: the `Vault(...)`
constructor call; `symbol` uses `fake.random_choices` (a list of token
names) and `amount` is `str(fake.random_number(digits=5))` — the source
comments "Amount stored as string in model". -/
def mkVault (u : User) (s : FakeState) : Vault × FakeState :=
  let (syms, s) := fakeRandomChoices tokenNames s
  let (amt, s) := fakeRandomNumber5 s
  ({ id := none, user_id := u.id, symbol := syms,
     amount := PyVal.strVal (toString amt) }, s)

/-- The nested loops of `create_vaults`: two vaults per user. -/
def buildVaults : List User → FakeState → List Vault × FakeState
  | [], s => ([], s)
  | u :: us, s =>
    let r1 := mkVault u s
    let r2 := mkVault u r1.2
    let rs := buildVaults us r2.2
    (r1.1 :: r2.1 :: rs.1, rs.2)

/-- `create_vaults(session, users)`: two vaults per user; when the batch is
non-empty it is bulk-saved and committed, otherwise no sink call is made.
The Python function returns `None`; the built batch is exposed here so its
contents can be specified. -/
def create_vaults (sess : Session) (users : List User) (s : FakeState) :
    List Vault × Session × FakeState :=
  let r := buildVaults users s
  if r.1.isEmpty then (r.1, sess, r.2)
  else (r.1, sessionBulkSaveCommit sess r.1.length, r.2)

/-- The inner loop of `create_transaction`:
`for i in range(len(transaction_statuses))` builds one `Transaction` per
status value, in the enumeration's order, each with a fresh unique hash
token and the position's (possibly unassigned) id. -/
def buildTransactionsFor (p : Position) :
    List String → FakeState → Except String (List Transaction × FakeState)
  | [], s => .ok ([], s)
  | st :: sts, s => do
    let (h, s) ← fakeUniqueUuid4 s
    let (rest, s) ← buildTransactionsFor p sts s
    .ok ({ id := none, position_id := p.id, status := st,
           transaction_hash := h } :: rest, s)

/-- The outer loop of `create_transaction` over the positions. -/
def buildTransactions : List Position → FakeState →
    Except String (List Transaction × FakeState)
  | [], s => .ok ([], s)
  | p :: ps, s => do
    let (ts, s) ← buildTransactionsFor p transactionStatusValues s
    let (rest, s) ← buildTransactions ps s
    .ok (ts ++ rest, s)

/-- `create_transaction(session, positions)`: one transaction per
(position, transaction-status) pair, then unconditionally `session.add_all`
+ `session.commit` (no empty-batch guard in this function).  The Python
function returns `None`; the built batch is exposed here so its contents can
be specified. -/
def create_transaction (sess : Session) (positions : List Position) (s : FakeState) :
    Except String (List Transaction × Session × FakeState) := do
  let (ts, s) ← buildTransactions positions s
  .ok (ts,
       { ops := sess.ops ++ [SinkOp.addAll ts.length, SinkOp.commit],
         nextId := sess.nextId + ts.length }, s)

/-- The dependency pipeline of the entity generators, in the entry point's
order (users → positions → vaults → transactions; `create_airdrops` and
`create_telegram_users` are commented out in the entry point, and the
entry point's `create_extra_deposits` call — which never gets this far, see
`seedMain` — is undefined).  Returns the generated batches. -/
def seedRun (sess : Session) (s : FakeState) :
    Except String ((List User × List Position × List Transaction) ×
      Session × FakeState) := do
  let (us, sess, s) ← create_users sess s
  let rp := create_positions sess us s
  let rv := create_vaults rp.2.1 us rp.2.2
  let (ts, sess, s) ← create_transaction rv.2.1 rp.1 rv.2.2
  .ok ((us, rp.1, ts), sess, s)

/-- The `if __name__ == "__main__":` block: `create_users`,
`create_positions`, then a call to `create_extra_deposits` — a name defined
nowhere in the module — so the run raises `NameError` at that point;
`create_vaults`, `create_transaction` and the final
"Database populated with fake data." log are never reached. -/
def seedMain (sess : Session) (s : FakeState) :
    Except String (Session × FakeState) := do
  let (users, sess, s) ← create_users sess s
  let _rp := create_positions sess users s
  Except.error "NameError: name create_extra_deposits is not defined"

/-! ### Basic lemmas about the embedding -/

theorem exceptBind_ok (a : α) (f : α → Except String β) :
    (Except.ok a >>= f) = f a := rfl

theorem exceptBind_error (e : String) (f : α → Except String β) :
    ((Except.error e : Except String α) >>= f) = Except.error e := rfl

/-- Two consecutive blocks of consecutively minted tokens are pairwise
distinct. -/
theorem nodup_range'_append (a n m : Nat) :
    (List.range' a n ++ List.range' (a + n) m).Nodup := by
  rw [List.range'_append_1]
  exact List.nodup_range' a (m + n)

/-- A successful `mkUser` call mints the next token as the wallet id and
advances only the mint counter of the uniqueness state. -/
theorem mkUser_ok {s s' : FakeState} {u : User}
    (h : mkUser s = .ok (u, s')) :
    u.wallet_id = s.uniqueUsed ∧ u.id = none ∧
      s'.uniqueUsed = s.uniqueUsed + 1 ∧ s'.uniqueDomain = s.uniqueDomain := by
  unfold mkUser fakeUniqueUuid4 at h
  split at h
  · rw [exceptBind_ok] at h
    simp only [fakeStringField, fakeBoolean, fakeDraw, Except.ok.injEq,
      Prod.mk.injEq] at h
    obtain ⟨hu, hs⟩ := h
    subst hu hs
    simp
  · rw [exceptBind_error] at h
    exact absurd h (by simp)

/-- Structure of a successful `buildUsers` run: the wallet ids are exactly
the next `n` minted tokens, in order. -/
theorem buildUsers_ok : ∀ (n : Nat) (s : FakeState) (us : List User)
    (s' : FakeState), buildUsers n s = .ok (us, s') →
    us.map User.wallet_id = List.range' s.uniqueUsed n ∧
    (∀ u ∈ us, u.id = none) ∧
    us.length = n ∧
    s'.uniqueUsed = s.uniqueUsed + n ∧ s'.uniqueDomain = s.uniqueDomain
  | 0, s, us, s', h => by
    simp only [buildUsers, Except.ok.injEq, Prod.mk.injEq] at h
    obtain ⟨h1, h2⟩ := h
    subst h1 h2
    simp
  | n + 1, s, us, s', h => by
    simp only [buildUsers] at h
    cases hm : mkUser s with
    | error e => rw [hm, exceptBind_error] at h; exact absurd h (by simp)
    | ok v =>
      obtain ⟨u, s₁⟩ := v
      rw [hm, exceptBind_ok] at h
      cases hb : buildUsers n s₁ with
      | error e => rw [hb, exceptBind_error] at h; exact absurd h (by simp)
      | ok w =>
        obtain ⟨us₁, s₂⟩ := w
        rw [hb, exceptBind_ok] at h
        simp only [Except.ok.injEq, Prod.mk.injEq] at h
        obtain ⟨h1, h2⟩ := h
        subst h1 h2
        obtain ⟨hw, hid, hcnt, hdom⟩ := mkUser_ok hm
        obtain ⟨ih1, ih2, ih3, ih4, ih5⟩ := buildUsers_ok n s₁ us₁ s₂ hb
        refine ⟨?_, ?_, ?_, ?_, ?_⟩
        · simp only [List.map_cons, ih1, hw, hcnt, List.range'_succ]
        · intro x hx
          simp only [List.mem_cons] at hx
          rcases hx with rfl | hx
          · exact hid
          · exact ih2 x hx
        · simp [ih3]
        · omega
        · omega

/-- Id assignment on users: wallet ids are untouched, every record gets an
assigned (`some`) primary key, and the length is preserved. -/
theorem assignIdsFrom_users : ∀ (k : Nat) (xs : List User),
    (assignIdsFrom User.setId k xs).map User.wallet_id = xs.map User.wallet_id ∧
    (∀ u ∈ assignIdsFrom User.setId k xs, ∃ j, u.id = some j) ∧
    (assignIdsFrom User.setId k xs).length = xs.length
  | _, [] => by simp [assignIdsFrom]
  | k, x :: xs => by
    obtain ⟨ih1, ih2, ih3⟩ := assignIdsFrom_users (k + 1) xs
    refine ⟨?_, ?_, ?_⟩
    · simp [assignIdsFrom, User.setId, ih1]
    · intro u hu
      simp only [assignIdsFrom, List.mem_cons] at hu
      rcases hu with rfl | hu
      · exact ⟨k, rfl⟩
      · exact ih2 u hu
    · simp [assignIdsFrom, ih3]

/-- Structure of a successful `create_users` call: ten users whose wallet
ids are the next ten minted unique tokens, each returned with an assigned
primary key. -/
theorem create_users_ok {sess sess' : Session} {s s' : FakeState}
    {us : List User} (h : create_users sess s = .ok (us, sess', s')) :
    us.map User.wallet_id = List.range' s.uniqueUsed 10 ∧
    (∀ u ∈ us, ∃ j, u.id = some j) ∧
    us.length = 10 ∧
    s'.uniqueUsed = s.uniqueUsed + 10 ∧ s'.uniqueDomain = s.uniqueDomain := by
  unfold create_users at h
  cases hb : buildUsers 10 s with
  | error e => rw [hb, exceptBind_error] at h; exact absurd h (by simp)
  | ok w =>
    obtain ⟨us₀, s₀⟩ := w
    rw [hb, exceptBind_ok] at h
    simp only [sessionAddAllCommit, Except.ok.injEq, Prod.mk.injEq] at h
    obtain ⟨h1, _, h3⟩ := h
    subst h1 h3
    obtain ⟨hw, _, hlen, hcnt, hdom⟩ := buildUsers_ok 10 s us₀ s₀ hb
    obtain ⟨a1, a2, a3⟩ := assignIdsFrom_users sess.nextId us₀
    exact ⟨a1.trans hw, a2, a3.trans hlen, hcnt, hdom⟩

/-- An index below the length selects a member of the list. -/
theorem getD_mem_of_lt {l : List String} {i : Nat} (h : i < l.length) :
    l.getD i "" ∈ l := by
  rw [List.getD_eq_getElem?_getD, List.getElem?_eq_getElem h]
  exact List.getElem_mem h

/-- `fake.random_element` of a non-empty list returns a member of it. -/
theorem fakeRandomElement_mem {l : List String} (hl : l ≠ []) (s : FakeState) :
    (fakeRandomElement l s).1 ∈ l :=
  getD_mem_of_lt (Nat.mod_lt _ (List.length_pos.mpr hl))

/-- Field-level description of one generated position: the parent tag, the
unassigned primary key, the single sampled token symbol, the bare-integer
amount, the unconditionally populated liquidation timestamp, and the fact
that sampling draws no unique tokens. -/
theorem mkPosition_spec (u : User) (s : FakeState) :
    (mkPosition u s).1.id = none ∧
    (mkPosition u s).1.user_id = u.id ∧
    (mkPosition u s).1.token_symbol ∈ tokenNames ∧
    (∃ n, (mkPosition u s).1.amount = PyVal.intVal n) ∧
    (mkPosition u s).1.datetime_liquidation ≠ none ∧
    (mkPosition u s).2.uniqueUsed = s.uniqueUsed ∧
    (mkPosition u s).2.uniqueDomain = s.uniqueDomain :=
  ⟨rfl, rfl, fakeRandomElement_mem (by decide) s, ⟨_, rfl⟩,
   by simp [mkPosition, fakeRandomElement, fakeRandomNumber5, fakeRandomInt,
        fakePydecimal, fakeBoolean, fakePyfloat, fakeDateTimeThisDecade,
        fakeDraw],
   rfl, rfl⟩

/-- Structure of the `create_positions` loop output: parent tags in order
(two per parent) and the per-record field facts, with the uniqueness state
untouched. -/
theorem buildPositions_spec : ∀ (us : List User) (s : FakeState),
    (buildPositions us s).1.map Position.user_id =
      us.flatMap (fun u => [u.id, u.id]) ∧
    (buildPositions us s).1.length = 2 * us.length ∧
    (∀ p ∈ (buildPositions us s).1, p.id = none ∧
      p.token_symbol ∈ tokenNames ∧ (∃ n, p.amount = PyVal.intVal n) ∧
      p.datetime_liquidation ≠ none) ∧
    (buildPositions us s).2.uniqueUsed = s.uniqueUsed ∧
    (buildPositions us s).2.uniqueDomain = s.uniqueDomain
  | [], s => by simp [buildPositions]
  | u :: us, s => by
    obtain ⟨m1i, m1u, m1t, m1a, m1d, m1c, m1dm⟩ := mkPosition_spec u s
    obtain ⟨m2i, m2u, m2t, m2a, m2d, m2c, m2dm⟩ :=
      mkPosition_spec u (mkPosition u s).2
    obtain ⟨ih1, ih2, ih3, ih4, ih5⟩ :=
      buildPositions_spec us (mkPosition u (mkPosition u s).2).2
    refine ⟨?_, ?_, ?_, ?_, ?_⟩
    · simp only [buildPositions, List.map_cons, List.flatMap_cons, ih1, m1u, m2u]
      simp
    · simp only [buildPositions, List.length_cons, ih2, List.length_cons]
      omega
    · intro p hp
      simp only [buildPositions, List.mem_cons] at hp
      rcases hp with rfl | rfl | hp
      · exact ⟨m1i, m1t, m1a, m1d⟩
      · exact ⟨m2i, m2t, m2a, m2d⟩
      · exact ih3 p hp
    · simp only [buildPositions, ih4, m2c, m1c]
    · simp only [buildPositions, ih5, m2dm, m1dm]

/-- `fakeTakeElements` draws exactly `k` members of the (non-empty) list and
leaves the uniqueness state untouched. -/
theorem fakeTakeElements_spec {l : List String} (hl : l ≠ []) :
    ∀ (k : Nat) (s : FakeState),
    (fakeTakeElements l k s).1.length = k ∧
    (∀ x ∈ (fakeTakeElements l k s).1, x ∈ l) ∧
    (fakeTakeElements l k s).2.uniqueUsed = s.uniqueUsed ∧
    (fakeTakeElements l k s).2.uniqueDomain = s.uniqueDomain
  | 0, s => by simp [fakeTakeElements]
  | k + 1, s => by
    obtain ⟨ih1, ih2, ih3, ih4⟩ :=
      fakeTakeElements_spec hl k (fakeRandomElement l s).2
    refine ⟨?_, ?_, ?_, ?_⟩
    · simp [fakeTakeElements, ih1]
    · intro x hx
      simp only [fakeTakeElements, List.mem_cons] at hx
      rcases hx with rfl | hx
      · exact fakeRandomElement_mem hl s
      · exact ih2 x hx
    · simpa [fakeTakeElements] using ih3
    · simpa [fakeTakeElements] using ih4

/-- `fake.random_choices` over a non-empty list returns between 1 and
`len(l)` members of `l`, leaving the uniqueness state untouched. -/
theorem fakeRandomChoices_spec {l : List String} (hl : l ≠ []) (s : FakeState) :
    (fakeRandomChoices l s).1 ≠ [] ∧
    (fakeRandomChoices l s).1.length ≤ l.length ∧
    (∀ x ∈ (fakeRandomChoices l s).1, x ∈ l) ∧
    (fakeRandomChoices l s).2.uniqueUsed = s.uniqueUsed ∧
    (fakeRandomChoices l s).2.uniqueDomain = s.uniqueDomain := by
  obtain ⟨t1, t2, t3, t4⟩ :=
    fakeTakeElements_spec hl (1 + (fakeDraw s).1 % l.length) (fakeDraw s).2
  have hmod : (fakeDraw s).1 % l.length < l.length :=
    Nat.mod_lt _ (List.length_pos.mpr hl)
  have heq : fakeRandomChoices l s
      = fakeTakeElements l (1 + (fakeDraw s).1 % l.length) (fakeDraw s).2 := rfl
  rw [heq]
  refine ⟨?_, ?_, t2, t3, t4⟩
  · intro hnil
    rw [hnil] at t1
    simp only [List.length_nil] at t1
    omega
  · omega

/-- Field-level description of one generated vault: the parent tag, the
unassigned primary key, the symbol list (a `random_choices` draw), the
string-typed amount, and the untouched uniqueness state. -/
theorem mkVault_spec (u : User) (s : FakeState) :
    (mkVault u s).1.id = none ∧
    (mkVault u s).1.user_id = u.id ∧
    (mkVault u s).1.symbol ≠ [] ∧
    (mkVault u s).1.symbol.length ≤ tokenNames.length ∧
    (∀ x ∈ (mkVault u s).1.symbol, x ∈ tokenNames) ∧
    (∃ str, (mkVault u s).1.amount = PyVal.strVal str) ∧
    (mkVault u s).2.uniqueUsed = s.uniqueUsed ∧
    (mkVault u s).2.uniqueDomain = s.uniqueDomain := by
  obtain ⟨c1, c2, c3, c4, c5⟩ :=
    fakeRandomChoices_spec (l := tokenNames) (by decide) s
  exact ⟨rfl, rfl, c1, c2, c3, ⟨_, rfl⟩,
    by simpa [mkVault, fakeRandomNumber5, fakeDraw] using c4,
    by simpa [mkVault, fakeRandomNumber5, fakeDraw] using c5⟩

/-- Structure of the `create_vaults` loop output: parent tags in order (two
per parent), the per-record field facts, and the untouched uniqueness
state. -/
theorem buildVaults_spec : ∀ (us : List User) (s : FakeState),
    (buildVaults us s).1.map Vault.user_id =
      us.flatMap (fun u => [u.id, u.id]) ∧
    (buildVaults us s).1.length = 2 * us.length ∧
    (∀ v ∈ (buildVaults us s).1, v.id = none ∧ v.symbol ≠ [] ∧
      v.symbol.length ≤ tokenNames.length ∧
      (∀ x ∈ v.symbol, x ∈ tokenNames) ∧
      (∃ str, v.amount = PyVal.strVal str)) ∧
    (buildVaults us s).2.uniqueUsed = s.uniqueUsed ∧
    (buildVaults us s).2.uniqueDomain = s.uniqueDomain
  | [], s => by simp [buildVaults]
  | u :: us, s => by
    obtain ⟨m1i, m1u, m1s, m1l, m1m, m1a, m1c, m1dm⟩ := mkVault_spec u s
    obtain ⟨m2i, m2u, m2s, m2l, m2m, m2a, m2c, m2dm⟩ :=
      mkVault_spec u (mkVault u s).2
    obtain ⟨ih1, ih2, ih3, ih4, ih5⟩ :=
      buildVaults_spec us (mkVault u (mkVault u s).2).2
    refine ⟨?_, ?_, ?_, ?_, ?_⟩
    · simp only [buildVaults, List.map_cons, List.flatMap_cons, ih1, m1u, m2u]
      simp
    · simp only [buildVaults, List.length_cons, ih2]
      omega
    · intro v hv
      simp only [buildVaults, List.mem_cons] at hv
      rcases hv with rfl | rfl | hv
      · exact ⟨m1i, m1s, m1l, m1m, m1a⟩
      · exact ⟨m2i, m2s, m2l, m2m, m2a⟩
      · exact ih3 v hv
    · simp only [buildVaults, ih4, m2c, m1c]
    · simp only [buildVaults, ih5, m2dm, m1dm]

/-- Field-level description of one generated airdrop: the parent tag, the
unassigned primary key, the `Decimal` amount, the `claimed_at` timestamp
present exactly when the third draw (the conditional expression's own
boolean, after the amount and `is_claimed` draws) is true, and the untouched
uniqueness state. -/
theorem mkAirDrop_spec (u : User) (s : FakeState) :
    (mkAirDrop u s).1.id = none ∧
    (mkAirDrop u s).1.user_id = u.id ∧
    (mkAirDrop u s).1.amount.isDecimal = true ∧
    (mkAirDrop u s).1.claimed_at.isSome =
      (fakeBoolean (fakeBoolean (fakePydecimal s).2).2).1 ∧
    (mkAirDrop u s).2.uniqueUsed = s.uniqueUsed ∧
    (mkAirDrop u s).2.uniqueDomain = s.uniqueDomain := by
  refine ⟨rfl, rfl, rfl, ?_, ?_, ?_⟩
  · cases hb : (fakeBoolean (fakeBoolean (fakePydecimal s).2).2).1 <;>
      simp [mkAirDrop, fakePydecimal, fakeBoolean, fakeDateTimeThisDecade,
        fakeDraw] at hb ⊢ <;> simp [hb]
  · cases hb : (fakeBoolean (fakeBoolean (fakePydecimal s).2).2).1 <;>
      simp [mkAirDrop, fakePydecimal, fakeBoolean, fakeDateTimeThisDecade,
        fakeDraw] at hb ⊢ <;> simp [hb]
  · cases hb : (fakeBoolean (fakeBoolean (fakePydecimal s).2).2).1 <;>
      simp [mkAirDrop, fakePydecimal, fakeBoolean, fakeDateTimeThisDecade,
        fakeDraw] at hb ⊢ <;> simp [hb]

/-- Structure of the `create_airdrops` loop output: parent tags in order
(two per parent), `Decimal` amounts throughout, and the untouched uniqueness
state. -/
theorem buildAirDrops_spec : ∀ (us : List User) (s : FakeState),
    (buildAirDrops us s).1.map AirDrop.user_id =
      us.flatMap (fun u => [u.id, u.id]) ∧
    (buildAirDrops us s).1.length = 2 * us.length ∧
    (∀ a ∈ (buildAirDrops us s).1, a.id = none ∧ a.amount.isDecimal = true) ∧
    (buildAirDrops us s).2.uniqueUsed = s.uniqueUsed ∧
    (buildAirDrops us s).2.uniqueDomain = s.uniqueDomain
  | [], s => by simp [buildAirDrops]
  | u :: us, s => by
    obtain ⟨m1i, m1u, m1d, _, m1c, m1dm⟩ := mkAirDrop_spec u s
    obtain ⟨m2i, m2u, m2d, _, m2c, m2dm⟩ := mkAirDrop_spec u (mkAirDrop u s).2
    obtain ⟨ih1, ih2, ih3, ih4, ih5⟩ :=
      buildAirDrops_spec us (mkAirDrop u (mkAirDrop u s).2).2
    refine ⟨?_, ?_, ?_, ?_, ?_⟩
    · simp only [buildAirDrops, List.map_cons, List.flatMap_cons, ih1, m1u, m2u]
      simp
    · simp only [buildAirDrops, List.length_cons, ih2]
      omega
    · intro a ha
      simp only [buildAirDrops, List.mem_cons] at ha
      rcases ha with rfl | rfl | ha
      · exact ⟨m1i, m1d⟩
      · exact ⟨m2i, m2d⟩
      · exact ih3 a ha
    · simp only [buildAirDrops, ih4, m2c, m1c]
    · simp only [buildAirDrops, ih5, m2dm, m1dm]

/-- `create_positions` returns exactly the batch built by its loop (the
empty-batch guard only skips the sink call). -/
theorem create_positions_records (sess : Session) (users : List User)
    (s : FakeState) :
    (create_positions sess users s).1 = (buildPositions users s).1 := by
  unfold create_positions
  by_cases h : (buildPositions users s).1.isEmpty <;> simp [h]

/-- `create_positions` also returns the faker state of its loop unchanged. -/
theorem create_positions_state (sess : Session) (users : List User)
    (s : FakeState) :
    (create_positions sess users s).2.2 = (buildPositions users s).2 := by
  unfold create_positions
  by_cases h : (buildPositions users s).1.isEmpty <;> simp [h]

/-- `create_vaults` returns exactly the batch built by its loop. -/
theorem create_vaults_records (sess : Session) (users : List User)
    (s : FakeState) :
    (create_vaults sess users s).1 = (buildVaults users s).1 := by
  unfold create_vaults
  by_cases h : (buildVaults users s).1.isEmpty <;> simp [h]

/-- `create_vaults` also returns the faker state of its loop unchanged. -/
theorem create_vaults_state (sess : Session) (users : List User)
    (s : FakeState) :
    (create_vaults sess users s).2.2 = (buildVaults users s).2 := by
  unfold create_vaults
  by_cases h : (buildVaults users s).1.isEmpty <;> simp [h]

/-- `create_airdrops` returns exactly the batch built by its loop. -/
theorem create_airdrops_records (sess : Session) (users : List User)
    (s : FakeState) :
    (create_airdrops sess users s).1 = (buildAirDrops users s).1 := by
  unfold create_airdrops
  by_cases h : (buildAirDrops users s).1.isEmpty <;> simp [h]

/-- Structure of the inner `create_transaction` loop for one position: one
transaction per status value in the enumeration's order, all carrying the
position's id, with consecutively minted hash tokens. -/
theorem buildTransactionsFor_ok : ∀ (p : Position) (sts : List String)
    (s : FakeState) (ts : List Transaction) (s' : FakeState),
    buildTransactionsFor p sts s = .ok (ts, s') →
    ts.map (fun t => (t.position_id, t.status)) = sts.map (fun v => (p.id, v)) ∧
    ts.map Transaction.transaction_hash = List.range' s.uniqueUsed sts.length ∧
    ts.length = sts.length ∧
    s'.uniqueUsed = s.uniqueUsed + sts.length ∧
    s'.uniqueDomain = s.uniqueDomain
  | p, [], s, ts, s', h => by
    simp only [buildTransactionsFor, Except.ok.injEq, Prod.mk.injEq] at h
    obtain ⟨h1, h2⟩ := h
    subst h1 h2
    simp
  | p, st :: sts, s, ts, s', h => by
    simp only [buildTransactionsFor] at h
    unfold fakeUniqueUuid4 at h
    split at h
    · rw [exceptBind_ok] at h
      cases hb : buildTransactionsFor p sts { s with uniqueUsed := s.uniqueUsed + 1 } with
      | error e => rw [hb, exceptBind_error] at h; exact absurd h (by simp)
      | ok w =>
        obtain ⟨ts₁, s₂⟩ := w
        rw [hb, exceptBind_ok] at h
        simp only [Except.ok.injEq, Prod.mk.injEq] at h
        obtain ⟨h1, h2⟩ := h
        subst h1 h2
        obtain ⟨ih1, ih2, ih3, ih4, ih5⟩ :=
          buildTransactionsFor_ok p sts _ ts₁ s₂ hb
        refine ⟨?_, ?_, ?_, ?_, ?_⟩
        · simp only [List.map_cons, ih1]
        · simp only [List.map_cons, ih2, List.length_cons, List.range'_succ]
        · simp [ih3]
        · simp only [ih4, List.length_cons]
          omega
        · simpa using ih5
    · rw [exceptBind_error] at h
      exact absurd h (by simp)

/-- Structure of a successful `create_transaction` loop run: the
(position id, status) pairs are the full cross product in order, and the
hash tokens are the next `|positions| * |statuses|` consecutively minted
unique tokens. -/
theorem buildTransactions_ok : ∀ (ps : List Position) (s : FakeState)
    (ts : List Transaction) (s' : FakeState),
    buildTransactions ps s = .ok (ts, s') →
    ts.map (fun t => (t.position_id, t.status)) =
      ps.flatMap (fun p => transactionStatusValues.map (fun v => (p.id, v))) ∧
    ts.map Transaction.transaction_hash = List.range' s.uniqueUsed ts.length ∧
    ts.length = ps.length * transactionStatusValues.length ∧
    s'.uniqueUsed = s.uniqueUsed + ts.length ∧
    s'.uniqueDomain = s.uniqueDomain
  | [], s, ts, s', h => by
    simp only [buildTransactions, Except.ok.injEq, Prod.mk.injEq] at h
    obtain ⟨h1, h2⟩ := h
    subst h1 h2
    simp
  | p :: ps, s, ts, s', h => by
    simp only [buildTransactions] at h
    cases hf : buildTransactionsFor p transactionStatusValues s with
    | error e => rw [hf, exceptBind_error] at h; exact absurd h (by simp)
    | ok w =>
      obtain ⟨ts₁, s₁⟩ := w
      rw [hf, exceptBind_ok] at h
      cases hb : buildTransactions ps s₁ with
      | error e => rw [hb, exceptBind_error] at h; exact absurd h (by simp)
      | ok w₂ =>
        obtain ⟨ts₂, s₂⟩ := w₂
        rw [hb, exceptBind_ok] at h
        simp only [Except.ok.injEq, Prod.mk.injEq] at h
        obtain ⟨h1, h2⟩ := h
        subst h1 h2
        obtain ⟨f1, f2, f3, f4, f5⟩ :=
          buildTransactionsFor_ok p transactionStatusValues s ts₁ s₁ hf
        obtain ⟨ih1, ih2, ih3, ih4, ih5⟩ := buildTransactions_ok ps s₁ ts₂ s₂ hb
        refine ⟨?_, ?_, ?_, ?_, ?_⟩
        · simp only [List.map_append, f1, ih1, List.flatMap_cons]
        · simp only [List.map_append, f2, ih2, f4, List.length_append, f3]
          rw [List.range'_append_1, Nat.add_comm]
        · simp only [List.length_append, f3, ih3, List.length_cons]
          ring
        · simp only [List.length_append, ih4, f4]
          omega
        · simp only [ih5, f5]

/-- A successful `create_transaction` call returns exactly its loop's batch,
and its sink interaction is one `add_all` of the whole batch followed by one
`commit` — issued even when the batch is empty. -/
theorem create_transaction_ok {sess sess' : Session} {s s' : FakeState}
    {ps : List Position} {ts : List Transaction}
    (h : create_transaction sess ps s = .ok (ts, sess', s')) :
    buildTransactions ps s = .ok (ts, s') ∧
    sess'.ops = sess.ops ++ [SinkOp.addAll ts.length, SinkOp.commit] := by
  unfold create_transaction at h
  cases hb : buildTransactions ps s with
  | error e => rw [hb, exceptBind_error] at h; exact absurd h (by simp)
  | ok w =>
    obtain ⟨ts₀, s₀⟩ := w
    rw [hb, exceptBind_ok] at h
    simp only [Except.ok.injEq, Prod.mk.injEq] at h
    obtain ⟨h1, h2, h3⟩ := h
    subst h1 h3
    exact ⟨rfl, by rw [← h2]⟩

/-- A successful `mkTelegramUser` call mints the next token as the telegram
id and copies the parent's wallet token. -/
theorem mkTelegramUser_ok {s s' : FakeState} {u : User} {t : TelegramUser}
    (h : mkTelegramUser u s = .ok (t, s')) :
    t.telegram_id = s.uniqueUsed ∧ t.wallet_id = u.wallet_id ∧
      s'.uniqueUsed = s.uniqueUsed + 1 ∧ s'.uniqueDomain = s.uniqueDomain := by
  unfold mkTelegramUser fakeUniqueUuid4 at h
  split at h
  · rw [exceptBind_ok] at h
    simp only [fakeStringField, fakeBoolean, fakeDraw, Except.ok.injEq,
      Prod.mk.injEq] at h
    obtain ⟨ht, hs⟩ := h
    subst ht hs
    simp
  · rw [exceptBind_error] at h
    exact absurd h (by simp)

/-- Structure of the `create_telegram_users` loop output: two records per
parent, each copying its parent's wallet token, with telegram ids the next
`2 * |users|` consecutively minted unique tokens. -/
theorem buildTelegramUsers_ok : ∀ (us : List User) (s : FakeState)
    (ts : List TelegramUser) (s' : FakeState),
    buildTelegramUsers us s = .ok (ts, s') →
    ts.map TelegramUser.wallet_id =
      us.flatMap (fun u => [u.wallet_id, u.wallet_id]) ∧
    ts.map TelegramUser.telegram_id =
      List.range' s.uniqueUsed (2 * us.length) ∧
    ts.length = 2 * us.length ∧
    s'.uniqueUsed = s.uniqueUsed + 2 * us.length ∧
    s'.uniqueDomain = s.uniqueDomain
  | [], s, ts, s', h => by
    simp only [buildTelegramUsers, Except.ok.injEq, Prod.mk.injEq] at h
    obtain ⟨h1, h2⟩ := h
    subst h1 h2
    simp
  | u :: us, s, ts, s', h => by
    simp only [buildTelegramUsers] at h
    cases h1 : mkTelegramUser u s with
    | error e => rw [h1, exceptBind_error] at h; exact absurd h (by simp)
    | ok w₁ =>
      obtain ⟨t₁, s₁⟩ := w₁
      rw [h1, exceptBind_ok] at h
      cases h2 : mkTelegramUser u s₁ with
      | error e => rw [h2, exceptBind_error] at h; exact absurd h (by simp)
      | ok w₂ =>
        obtain ⟨t₂, s₂⟩ := w₂
        rw [h2, exceptBind_ok] at h
        cases h3 : buildTelegramUsers us s₂ with
        | error e => rw [h3, exceptBind_error] at h; exact absurd h (by simp)
        | ok w₃ =>
          obtain ⟨ts₃, s₃⟩ := w₃
          rw [h3, exceptBind_ok] at h
          simp only [Except.ok.injEq, Prod.mk.injEq] at h
          obtain ⟨hl, hr⟩ := h
          subst hl hr
          obtain ⟨m1t, m1w, m1c, m1d⟩ := mkTelegramUser_ok h1
          obtain ⟨m2t, m2w, m2c, m2d⟩ := mkTelegramUser_ok h2
          obtain ⟨ih1, ih2, ih3, ih4, ih5⟩ := buildTelegramUsers_ok us s₂ ts₃ s₃ h3
          refine ⟨?_, ?_, ?_, ?_, ?_⟩
          · simp only [List.map_cons, ih1, m1w, m2w, List.flatMap_cons]
            simp
          · simp only [List.map_cons, ih2, m1t, m2t, m2c, m1c,
              List.length_cons]
            rw [show 2 * (us.length + 1) = (2 * us.length + 1) + 1 by ring,
              List.range'_succ, List.range'_succ]
          · simp only [List.length_cons, ih3]
            omega
          · simp only [ih4, m2c, m1c, List.length_cons]
            omega
          · simp only [ih5, m2d, m1d]

/-- A successful `create_telegram_users` call returns exactly its loop's
batch, and its sink interaction is one `bulk_save_objects` of the whole
batch followed by one `commit` — issued even when the batch is empty. -/
theorem create_telegram_users_ok {sess sess' : Session} {s s' : FakeState}
    {us : List User} {ts : List TelegramUser}
    (h : create_telegram_users sess us s = .ok (ts, sess', s')) :
    buildTelegramUsers us s = .ok (ts, s') ∧
    sess'.ops = sess.ops ++ [SinkOp.bulkSave ts.length, SinkOp.commit] := by
  unfold create_telegram_users at h
  cases hb : buildTelegramUsers us s with
  | error e => rw [hb, exceptBind_error] at h; exact absurd h (by simp)
  | ok w =>
    obtain ⟨ts₀, s₀⟩ := w
    rw [hb, exceptBind_ok] at h
    simp only [sessionBulkSaveCommit, Except.ok.injEq, Prod.mk.injEq] at h
    obtain ⟨h1, h2, h3⟩ := h
    subst h1 h3
    exact ⟨rfl, by rw [← h2]⟩

/-- Decomposition of a successful pipeline run into its stages: the users
come from `create_users`, the positions are the `create_positions` batch
over those users, and the transactions are the `create_transaction` batch
over those positions (the faker state threading through the position and
vault loops in between). -/
theorem seedRun_ok {sess sess' : Session} {s s' : FakeState}
    {us : List User} {ps : List Position} {ts : List Transaction}
    (h : seedRun sess s = .ok ((us, ps, ts), sess', s')) :
    ∃ sess₁ s₁ s₂,
      create_users sess s = .ok (us, sess₁, s₁) ∧
      ps = (buildPositions us s₁).1 ∧
      buildTransactions ps (buildVaults us (buildPositions us s₁).2).2 =
        .ok (ts, s₂) := by
  unfold seedRun at h
  cases hcu : create_users sess s with
  | error e => rw [hcu, exceptBind_error] at h; exact absurd h (by simp)
  | ok w =>
    obtain ⟨us₀, sess₁, s₁⟩ := w
    rw [hcu, exceptBind_ok] at h
    dsimp only at h
    cases hct : create_transaction
        (create_vaults (create_positions sess₁ us₀ s₁).2.1 us₀
          (create_positions sess₁ us₀ s₁).2.2).2.1
        (create_positions sess₁ us₀ s₁).1
        (create_vaults (create_positions sess₁ us₀ s₁).2.1 us₀
          (create_positions sess₁ us₀ s₁).2.2).2.2 with
    | error e => rw [hct, exceptBind_error] at h; exact absurd h (by simp)
    | ok w₂ =>
      obtain ⟨ts₂, sess₂, s₂⟩ := w₂
      rw [hct, exceptBind_ok] at h
      simp only [Except.ok.injEq, Prod.mk.injEq] at h
      obtain ⟨⟨hu, hp, ht⟩, hsess, hs⟩ := h
      subst hu ht hsess hs
      obtain ⟨hbt, _⟩ := create_transaction_ok hct
      refine ⟨sess₁, s₁, s₂, rfl, ?_, ?_⟩
      · rw [← hp, create_positions_records]
      · rw [create_vaults_state, create_positions_state] at hbt
        rw [← hp]
        exact hbt

/-! ### Concrete run inputs used by witnesses and counterexamples -/

/-- A fresh session: empty operation log, id sequence at 0. -/
def demoSession : Session := { ops := [], nextId := 0 }

/-- A fresh faker state: all raw draws 0, nothing minted, a large
uniqueness domain. -/
def demoFake : FakeState :=
  { draws := [], idx := 0, uniqueUsed := 0, uniqueDomain := 1000 }

/-- A persisted user with an assigned id, as `create_positions` receives
them. -/
def demoUser : User :=
  { id := some 1, wallet_id := 0, contract_address := "addr-0",
    is_contract_deployed := false }

/-- A position as `create_transaction` receives them from
`create_positions`. -/
def demoPosition : Position :=
  { id := none, user_id := some 1, token_symbol := "ETH",
    amount := PyVal.intVal 0, multiplier := 1, start_price := PyVal.decVal 0 2,
    status := "pending", is_protection := false,
    liquidation_bonus := PyVal.floatVal 0, is_liquidated := false,
    datetime_liquidation := some 0 }

/-- The concrete output of `create_transaction` on one position. -/
def demoTxOut : List Transaction × Session × FakeState :=
  (create_transaction demoSession [demoPosition] demoFake).toOption.getD
    ([], demoSession, demoFake)

/-- The concrete output of the full pipeline on fresh inputs. -/
def demoRunOut : (List User × List Position × List Transaction) ×
    Session × FakeState :=
  (seedRun demoSession demoFake).toOption.getD
    (([], [], []), demoSession, demoFake)

/-- The concrete output of `create_telegram_users` on one user. -/
def demoTgOut : List TelegramUser × Session × FakeState :=
  (create_telegram_users demoSession [demoUser] demoFake).toOption.getD
    ([], demoSession, demoFake)

/-! ### Claims -/

/-- C1: for every list of positions, `create_transaction` produces exactly
`len(positions) * |TransactionStatus enumeration|` Transaction records, and
every position's transactions carry the status enumeration exactly once
each (the enumeration has no duplicates), in the enumeration's canonical
order — the (position id, status) projection of the batch is literally the
in-order cross product. -/
theorem C1_transaction_cross_product {sess sess' : Session}
    {s s' : FakeState} {ps : List Position} {ts : List Transaction}
    (h : create_transaction sess ps s = .ok (ts, sess', s')) :
    ts.length = ps.length * transactionStatusValues.length ∧
    ts.map (fun t => (t.position_id, t.status)) =
      ps.flatMap (fun p => transactionStatusValues.map (fun v => (p.id, v))) ∧
    transactionStatusValues.Nodup := by
  obtain ⟨hbt, _⟩ := create_transaction_ok h
  obtain ⟨m1, _, m3, _, _⟩ := buildTransactions_ok ps s ts s' hbt
  exact ⟨m3, m1, by decide⟩

/-- Witness for C1 at one concrete position and a fresh state. -/
theorem C1_witness :
    create_transaction demoSession [demoPosition] demoFake =
      .ok (demoTxOut.1, demoTxOut.2.1, demoTxOut.2.2) ∧
    (demoTxOut.1.length =
        ([demoPosition] : List Position).length *
          transactionStatusValues.length ∧
      demoTxOut.1.map (fun t => (t.position_id, t.status)) =
        ([demoPosition] : List Position).flatMap
          (fun p => transactionStatusValues.map (fun v => (p.id, v))) ∧
      transactionStatusValues.Nodup) :=
  ⟨rfl, @C1_transaction_cross_product demoSession demoTxOut.2.1 demoFake
    demoTxOut.2.2 [demoPosition] demoTxOut.1 rfl⟩

/-- C2: for every non-empty list of parent users, each fan-out generator
(`create_positions`, `create_vaults`, `create_airdrops`) produces exactly
`C * 2` child records, and the parent-tag projection of each batch is the
parents' ids, two apiece, in order. -/
theorem C2_fanout_cardinality (sess : Session) (users : List User)
    (s : FakeState) (h : users ≠ []) :
    ((create_positions sess users s).1.length = users.length * 2 ∧
      (create_positions sess users s).1.map Position.user_id =
        users.flatMap (fun u => [u.id, u.id])) ∧
    ((create_vaults sess users s).1.length = users.length * 2 ∧
      (create_vaults sess users s).1.map Vault.user_id =
        users.flatMap (fun u => [u.id, u.id])) ∧
    ((create_airdrops sess users s).1.length = users.length * 2 ∧
      (create_airdrops sess users s).1.map AirDrop.user_id =
        users.flatMap (fun u => [u.id, u.id])) := by
  obtain ⟨p1, p2, _, _, _⟩ := buildPositions_spec users s
  obtain ⟨v1, v2, _, _, _⟩ := buildVaults_spec users s
  obtain ⟨a1, a2, _, _, _⟩ := buildAirDrops_spec users s
  refine ⟨⟨?_, ?_⟩, ⟨?_, ?_⟩, ⟨?_, ?_⟩⟩
  · rw [create_positions_records, p2, Nat.mul_comm]
  · rw [create_positions_records, p1]
  · rw [create_vaults_records, v2, Nat.mul_comm]
  · rw [create_vaults_records, v1]
  · rw [create_airdrops_records, a2, Nat.mul_comm]
  · rw [create_airdrops_records, a1]

/-- Witness for C2 at a one-user parent list and a fresh state. -/
theorem C2_witness :
    ([demoUser] : List User) ≠ [] ∧
    (((create_positions demoSession [demoUser] demoFake).1.length =
        ([demoUser] : List User).length * 2 ∧
      (create_positions demoSession [demoUser] demoFake).1.map
          Position.user_id =
        ([demoUser] : List User).flatMap (fun u => [u.id, u.id])) ∧
    ((create_vaults demoSession [demoUser] demoFake).1.length =
        ([demoUser] : List User).length * 2 ∧
      (create_vaults demoSession [demoUser] demoFake).1.map Vault.user_id =
        ([demoUser] : List User).flatMap (fun u => [u.id, u.id])) ∧
    ((create_airdrops demoSession [demoUser] demoFake).1.length =
        ([demoUser] : List User).length * 2 ∧
      (create_airdrops demoSession [demoUser] demoFake).1.map
          AirDrop.user_id =
        ([demoUser] : List User).flatMap (fun u => [u.id, u.id]))) :=
  ⟨by decide, C2_fanout_cardinality demoSession [demoUser] demoFake
    (by decide)⟩

/-- C3: all wallet-id tokens from `create_users` and all transaction-hash
tokens from `create_transaction` within one pipeline run are pairwise
distinct (across the whole run, both families together), and the unique
generator fails with `UniquenessException` on domain exhaustion instead of
emitting a duplicate. -/
theorem C3_run_wide_token_uniqueness {sess sess' : Session}
    {s s' : FakeState} {us : List User} {ps : List Position}
    {ts : List Transaction}
    (h : seedRun sess s = .ok ((us, ps, ts), sess', s')) :
    (us.map User.wallet_id ++ ts.map Transaction.transaction_hash).Nodup ∧
    ∀ s₀ : FakeState, ¬ s₀.uniqueUsed < s₀.uniqueDomain →
      fakeUniqueUuid4 s₀ = .error "UniquenessException" := by
  obtain ⟨sess₁, s₁, s₂, hcu, hps, hbt⟩ := seedRun_ok h
  obtain ⟨w1, _, _, wcnt, _⟩ := create_users_ok hcu
  obtain ⟨_, t2, _, _, _⟩ := buildTransactions_ok _ _ _ _ hbt
  have hpu : (buildPositions us s₁).2.uniqueUsed = s₁.uniqueUsed :=
    (buildPositions_spec us s₁).2.2.2.1
  have hvu : (buildVaults us (buildPositions us s₁).2).2.uniqueUsed =
      (buildPositions us s₁).2.uniqueUsed :=
    (buildVaults_spec us (buildPositions us s₁).2).2.2.2.1
  constructor
  · rw [w1, t2, hvu, hpu, wcnt]
    exact nodup_range'_append s.uniqueUsed 10 ts.length
  · intro s₀ h₀
    unfold fakeUniqueUuid4
    rw [if_neg h₀]

set_option maxRecDepth 100000 in
/-- Witness for C3 at the concrete full pipeline run on fresh inputs (ten
users, twenty positions, eighty transactions). -/
theorem C3_witness :
    seedRun demoSession demoFake =
      .ok ((demoRunOut.1.1, demoRunOut.1.2.1, demoRunOut.1.2.2),
        demoRunOut.2.1, demoRunOut.2.2) ∧
    ((demoRunOut.1.1.map User.wallet_id ++
        demoRunOut.1.2.2.map Transaction.transaction_hash).Nodup ∧
      ∀ s₀ : FakeState, ¬ s₀.uniqueUsed < s₀.uniqueDomain →
        fakeUniqueUuid4 s₀ = .error "UniquenessException") :=
  ⟨rfl, @C3_run_wide_token_uniqueness demoSession demoRunOut.2.1 demoFake
    demoRunOut.2.2 demoRunOut.1.1 demoRunOut.1.2.1 demoRunOut.1.2.2 rfl⟩

/-- C4 (code bug, demonstrated): in a pipeline run, every position's
`user_id` does resolve to an assigned id of a user from this run's root set
(`add_all` + `commit` populates `User.id`); but every transaction's
`position_id` is `None`, because `create_positions` persists its batch with
`bulk_save_objects`, which never writes the assigned ids back onto the
`Position` objects that `create_transaction` then reads. -/
theorem C4_parent_reference_bug {sess sess' : Session} {s s' : FakeState}
    {us : List User} {ps : List Position} {ts : List Transaction}
    (h : seedRun sess s = .ok ((us, ps, ts), sess', s')) :
    (∀ p ∈ ps, (∃ u ∈ us, p.user_id = u.id) ∧ ∃ k, p.user_id = some k) ∧
    (∀ t ∈ ts, t.position_id = none) := by
  obtain ⟨sess₁, s₁, s₂, hcu, hps, hbt⟩ := seedRun_ok h
  obtain ⟨_, hassigned, _, _, _⟩ := create_users_ok hcu
  obtain ⟨bp1, _, bp3, _, _⟩ := buildPositions_spec us s₁
  obtain ⟨bt1, _, _, _, _⟩ := buildTransactions_ok _ _ _ _ hbt
  constructor
  · intro p hp
    rw [hps] at hp
    have hmem : p.user_id ∈ (buildPositions us s₁).1.map Position.user_id :=
      List.mem_map_of_mem _ hp
    rw [bp1] at hmem
    simp only [List.mem_flatMap, List.mem_cons, List.not_mem_nil,
      or_false] at hmem
    obtain ⟨u, hu, hid⟩ := hmem
    have hid' : p.user_id = u.id := by rcases hid with h' | h' <;> exact h'
    obtain ⟨k, hk⟩ := hassigned u hu
    exact ⟨⟨u, hu, hid'⟩, ⟨k, hid'.trans hk⟩⟩
  · intro t ht
    have hmem : (t.position_id, t.status) ∈
        ts.map (fun t => (t.position_id, t.status)) :=
      List.mem_map_of_mem _ ht
    rw [bt1] at hmem
    simp only [List.mem_flatMap, List.mem_map, Prod.mk.injEq] at hmem
    obtain ⟨p, hp, v, _, heq, _⟩ := hmem
    rw [hps] at hp
    rw [← heq]
    exact (bp3 p hp).1

set_option maxRecDepth 100000 in
/-- Witness for C4 at the concrete full pipeline run on fresh inputs: all
twenty positions carry assigned parent ids, all eighty transactions carry
`position_id = None`. -/
theorem C4_witness :
    seedRun demoSession demoFake =
      .ok ((demoRunOut.1.1, demoRunOut.1.2.1, demoRunOut.1.2.2),
        demoRunOut.2.1, demoRunOut.2.2) ∧
    ((∀ p ∈ demoRunOut.1.2.1, (∃ u ∈ demoRunOut.1.1, p.user_id = u.id) ∧
        ∃ k, p.user_id = some k) ∧
      (∀ t ∈ demoRunOut.1.2.2, t.position_id = none)) :=
  ⟨rfl, @C4_parent_reference_bug demoSession demoRunOut.2.1 demoFake
    demoRunOut.2.2 demoRunOut.1.1 demoRunOut.1.2.1 demoRunOut.1.2.2 rfl⟩

/-- C5 (code bug, demonstrated): the no-argument entry point never
completes: after `create_users` and `create_positions` it calls
`create_extra_deposits`, a name defined nowhere in the module, so every run
raises `NameError` before `create_vaults`, `create_transaction` and the
final record-count log, and never exits with success. -/
theorem C5_entry_point_always_fails (sess : Session) (s : FakeState) :
    (seedMain sess s).toOption = none := by
  unfold seedMain
  cases hcu : create_users sess s with
  | error e => rw [exceptBind_error]; rfl
  | ok w =>
    obtain ⟨us, sess₁, s₁⟩ := w
    rw [exceptBind_ok]
    rfl

/-- C6 (corrected): on an empty parent list, every generator produces zero
records and raises no error, and `create_positions`, `create_vaults` and
`create_airdrops` leave the session untouched (no sink call at all); but
`create_transaction` and `create_telegram_users` have no empty-batch guard
and still issue an empty handover plus a `commit` to the sink (and, in the
source, return `None` rather than a list). -/
theorem C6_empty_parent_list (sess : Session) (s : FakeState) :
    create_positions sess [] s = ([], sess, s) ∧
    create_vaults sess [] s = ([], sess, s) ∧
    create_airdrops sess [] s = ([], sess, s) ∧
    create_telegram_users sess [] s =
      .ok ([], { ops := sess.ops ++ [SinkOp.bulkSave 0, SinkOp.commit],
                 nextId := sess.nextId }, s) ∧
    create_transaction sess [] s =
      .ok ([], { ops := sess.ops ++ [SinkOp.addAll 0, SinkOp.commit],
                 nextId := sess.nextId }, s) :=
  ⟨rfl, rfl, rfl, rfl, rfl⟩

/-- Counterexample to C6 as stated: called on the empty parent list, the
secondary transaction generator does not perform zero sink writes — its
operation log grows by an (empty) `add_all` handover and a `commit`. -/
theorem C6_counterexample :
    create_transaction demoSession [] demoFake =
      .ok ([], { ops := [SinkOp.addAll 0, SinkOp.commit], nextId := 0 },
        demoFake) ∧
    ({ ops := [SinkOp.addAll 0, SinkOp.commit], nextId := 0 } : Session) ≠
      demoSession :=
  ⟨rfl, by decide⟩

/-- C7 (corrected): every position's `token_symbol` is a single member of
the token-symbol enumeration; but a vault's `symbol` is a non-empty *list*
of members (of random length up to the enumeration's size), because
`create_vaults` samples with `fake.random_choices` instead of
`fake.random_element`. -/
theorem C7_symbol_domain (sess : Session) (users : List User)
    (s : FakeState) :
    (∀ p ∈ (create_positions sess users s).1, p.token_symbol ∈ tokenNames) ∧
    (∀ v ∈ (create_vaults sess users s).1, v.symbol ≠ [] ∧
      v.symbol.length ≤ tokenNames.length ∧ ∀ x ∈ v.symbol, x ∈ tokenNames) := by
  constructor
  · intro p hp
    rw [create_positions_records] at hp
    exact ((buildPositions_spec users s).2.2.1 p hp).2.1
  · intro v hv
    rw [create_vaults_records] at hv
    obtain ⟨_, h2, h3, h4, _⟩ := (buildVaults_spec users s).2.2.1 v hv
    exact ⟨h2, h3, h4⟩

/-- Counterexample to C7 as stated: with a draw stream starting `[1]`, the
first generated vault's `symbol` is the two-element list
`["ETH", "ETH"]`, which is not `[t]` for any single member `t` of the
token-symbol enumeration. -/
theorem C7_counterexample :
    ((create_vaults demoSession [demoUser]
        { draws := [1], idx := 0, uniqueUsed := 0,
          uniqueDomain := 1000 }).1.head?.map Vault.symbol) =
      some ["ETH", "ETH"] ∧
    ¬ ∃ t ∈ tokenNames, (["ETH", "ETH"] : List String) = [t] :=
  ⟨rfl, by decide⟩

/-- C8 (corrected): only the airdrop amounts are fixed-precision decimals;
a position's `amount` is a bare integer (`fake.random_number(digits=5)`
unwrapped) and a vault's `amount` is a string
(`str(fake.random_number(digits=5))`, deliberately per the source comment
"Amount stored as string in model"). -/
theorem C8_amount_representation (sess : Session) (users : List User)
    (s : FakeState) :
    (∀ a ∈ (create_airdrops sess users s).1, a.amount.isDecimal = true) ∧
    (∀ p ∈ (create_positions sess users s).1,
      ∃ n, p.amount = PyVal.intVal n) ∧
    (∀ v ∈ (create_vaults sess users s).1,
      ∃ str, v.amount = PyVal.strVal str) := by
  refine ⟨?_, ?_, ?_⟩
  · intro a ha
    rw [create_airdrops_records] at ha
    exact ((buildAirDrops_spec users s).2.2.1 a ha).2
  · intro p hp
    rw [create_positions_records] at hp
    exact ((buildPositions_spec users s).2.2.1 p hp).2.2.1
  · intro v hv
    rw [create_vaults_records] at hv
    exact ((buildVaults_spec users s).2.2.1 v hv).2.2.2.2

/-- Counterexample to C8 as stated: in a concrete run over one user, the
first position's amount and the first vault's amount are not
fixed-precision decimals (they are an `int` and a `str` respectively). -/
theorem C8_counterexample :
    ((create_positions demoSession [demoUser] demoFake).1.head?.map
        (fun p => p.amount.isDecimal)) = some false ∧
    ((create_vaults demoSession [demoUser] demoFake).1.head?.map
        (fun v => v.amount.isDecimal)) = some false :=
  ⟨rfl, rfl⟩

/-- C9 (corrected): an airdrop's `claimed_at` is present exactly when the
conditional expression's own boolean draw (the draw taken after the amount
and `is_claimed` draws) is true, and explicitly `None` otherwise; but a
position's `datetime_liquidation` is populated on every record of every
run — no boolean draw gates it. -/
theorem C9_nullable_timestamp (sess : Session) (users : List User)
    (u : User) (s : FakeState) :
    (mkAirDrop u s).1.claimed_at.isSome =
      (fakeBoolean (fakeBoolean (fakePydecimal s).2).2).1 ∧
    (∀ p ∈ (create_positions sess users s).1,
      p.datetime_liquidation ≠ none) := by
  constructor
  · exact (mkAirDrop_spec u s).2.2.2.1
  · intro p hp
    rw [create_positions_records] at hp
    exact ((buildPositions_spec users s).2.2.1 p hp).2.2.2

/-- Counterexample to C9 as stated: with the all-zero draw stream every
boolean draw is false (as the record's own flags show), yet the generated
position's liquidation timestamp is still populated — it is not `None` when
the draw is false, because no draw governs it at all. -/
theorem C9_counterexample :
    (mkPosition demoUser demoFake).1.is_protection = false ∧
    (mkPosition demoUser demoFake).1.is_liquidated = false ∧
    (mkPosition demoUser demoFake).1.datetime_liquidation = some 0 :=
  ⟨rfl, rfl, rfl⟩

/-- C10: for every non-empty user list, `create_telegram_users` produces
exactly two records per user, each linked to its parent by copying the
parent's `wallet_id` token (two apiece, in order — not the parent's numeric
id), with the telegram ids being the next `2 * |users|` consecutively
minted run-wide unique tokens, hence pairwise distinct. -/
theorem C10_telegram_users {sess sess' : Session} {s s' : FakeState}
    {users : List User} {ts : List TelegramUser}
    (hne : users ≠ [])
    (h : create_telegram_users sess users s = .ok (ts, sess', s')) :
    ts.length = 2 * users.length ∧
    ts.map TelegramUser.wallet_id =
      users.flatMap (fun u => [u.wallet_id, u.wallet_id]) ∧
    ts.map TelegramUser.telegram_id =
      List.range' s.uniqueUsed (2 * users.length) ∧
    (ts.map TelegramUser.telegram_id).Nodup := by
  obtain ⟨hb, _⟩ := create_telegram_users_ok h
  obtain ⟨b1, b2, b3, _, _⟩ := buildTelegramUsers_ok users s ts s' hb
  refine ⟨b3, b1, b2, ?_⟩
  rw [b2]
  exact List.nodup_range' s.uniqueUsed (2 * users.length)

/-- Witness for C10 at a one-user parent list and a fresh state. -/
theorem C10_witness :
    ([demoUser] : List User) ≠ [] ∧
    create_telegram_users demoSession [demoUser] demoFake =
      .ok (demoTgOut.1, demoTgOut.2.1, demoTgOut.2.2) ∧
    (demoTgOut.1.length = 2 * ([demoUser] : List User).length ∧
      demoTgOut.1.map TelegramUser.wallet_id =
        ([demoUser] : List User).flatMap
          (fun u => [u.wallet_id, u.wallet_id]) ∧
      demoTgOut.1.map TelegramUser.telegram_id =
        List.range' demoFake.uniqueUsed
          (2 * ([demoUser] : List User).length) ∧
      (demoTgOut.1.map TelegramUser.telegram_id).Nodup) :=
  ⟨by decide, rfl, @C10_telegram_users demoSession demoTgOut.2.1 demoFake
    demoTgOut.2.2 [demoUser] demoTgOut.1 (by decide) rfl⟩
